import Mathlib

/-!
Shallow embedding of `train_resnet_cifar10.py` (a CIFAR-10 ResNet training
script) and proofs about its configuration defaults, epoch-metric
aggregation, checkpoint bookkeeping, and learning-rate schedule resume
logic.

Conventions of the embedding:
* Python floats are modelled as exact rationals (`ℚ`); the claims under
  study are about the arithmetic the script performs, not about rounding.
* Tensors appearing as opaque data (model parameters, optimizer internal
  state) are modelled as `List ℚ`.  A batch of images is a `List (List ℚ)`
  (one row per image) together with its integer labels, so that
  `images.size(0)` becomes the length of the row list.
* Operations delegated to the ML framework (the forward pass, the loss
  computation, autodiff + the SGD update) are parameters of the embedded
  functions: `train_one_epoch` and `evaluate` receive them as function
  arguments, exactly as the script receives `model`, `criterion`,
  `optimizer` as opaque callables.
* The filesystem holding checkpoints is a map from path to file content;
  an existing-but-unreadable file is `some none` (so `torch.load` on it
  raises), an absent file is `none`.
-/

namespace TrainCifar

abbrev Params := List ℚ

abbrev OptSt := List ℚ

/-- The `TrainConfig` dataclass (source lines 22–36).  `data_dir` has no
default; every other field carries the dataclass's default value
(`epochs` defaults to `20` there). -/
structure TrainConfig where
  data_dir : String
  batch_size : Nat := 128
  num_workers : Nat := 4
  epochs : Nat := 20
  lr : ℚ := 1/10
  momentum : ℚ := 9/10
  weight_decay : ℚ := 5/10000
  step_size : Nat := 60
  gamma : ℚ := 1/5
  resume : Option String := none
  output_dir : String := "runs"

/-- The command-line arguments accepted by `parse_args` (source lines
230–268), with the argparse defaults: note `--epochs` defaults to `120`
and `--data-dir` to `./data`. -/
structure CLIArgs where
  data_dir : String := "./data"
  batch_size : Nat := 128
  epochs : Nat := 120
  lr : ℚ := 1/10
  momentum : ℚ := 9/10
  weight_decay : ℚ := 5/10000
  step_size : Nat := 60
  gamma : ℚ := 1/5
  num_workers : Nat := 4
  resume : Option String := none
  output_dir : String := "runs"

/-- `parse_args` (source lines 230–283): builds a `TrainConfig` from the
parsed command-line values, field by field. -/
def parse_args (a : CLIArgs) : TrainConfig :=
  { data_dir := a.data_dir
    batch_size := a.batch_size
    num_workers := a.num_workers
    epochs := a.epochs
    lr := a.lr
    momentum := a.momentum
    weight_decay := a.weight_decay
    step_size := a.step_size
    gamma := a.gamma
    resume := a.resume
    output_dir := a.output_dir }

/-- Helper for `argmaxIdx`: scan the remaining entries keeping the index of
the best value seen so far; a strictly larger value replaces it, so ties
keep the first maximal index, as `torch.argmax` does. -/
def argmaxAux : List ℚ → Nat → Nat → ℚ → Nat
  | [], _, bi, _ => bi
  | x :: xs, i, bi, bv =>
    if bv < x then argmaxAux xs (i + 1) i x else argmaxAux xs (i + 1) bi bv

/-- Index of the first maximal entry of a row of logits
(`logits.argmax(dim=1)` applied to one row). -/
def argmaxIdx : List ℚ → Nat
  | [] => 0
  | x :: xs => argmaxAux xs 1 0 x

/-- `accuracy` (source lines 94–96): fraction of rows whose arg-max logit
equals the target label; the mean divides by the number of predictions. -/
def accuracy (logits : List (List ℚ)) (targets : List Nat) : ℚ :=
  (((logits.zip targets).countP fun p => decide (argmaxIdx p.1 = p.2)) : ℚ)
    / (logits.length : ℚ)

/-- A model is its parameter vector plus the train/eval mode flag that
`model.train()` / `model.eval()` toggle. -/
structure Model where
  params : Params
  training : Bool

/-- One batch: a list of image rows paired with the integer labels. -/
abbrev Batch := List (List ℚ) × List Nat

/-- `train_one_epoch` (source lines 99–124).  `forward` is the model's
forward pass, `lossFn` the criterion, and `update` performs
`loss.backward(); optimizer.step()` (autodiff and the SGD rule are the
framework's, so they enter as an opaque state update on
(parameters, optimizer state) from the current batch).  The running loss
and accuracy totals are weighted by `images.size(0)` and finally divided
by `numSamples`, which models `len(dataloader.dataset)`. -/
def train_one_epoch (forward : Params → List (List ℚ) → List (List ℚ))
    (lossFn : List (List ℚ) → List Nat → ℚ)
    (update : Params × OptSt → Batch → Params × OptSt)
    (m : Model) (opt : OptSt) (batches : List Batch) (numSamples : Nat) :
    (Model × OptSt) × ℚ × ℚ :=
  let m := { m with training := true }
  let st := batches.foldl
    (fun (st : (Params × OptSt) × ℚ × ℚ) b =>
      let outputs := forward st.1.1 b.1
      let l := lossFn outputs b.2
      (update st.1 b,
        st.2.1 + l * (b.1.length : ℚ),
        st.2.2 + accuracy outputs b.2 * (b.1.length : ℚ)))
    ((m.params, opt), 0, 0)
  (({ m with params := st.1.1 }, st.1.2),
    st.2.1 / (numSamples : ℚ), st.2.2 / (numSamples : ℚ))

/-- `evaluate` (source lines 127–148): same traversal and aggregation as
`train_one_epoch`, but inside `torch.no_grad()` — no update is applied,
the loop only reads the (eval-mode) model's parameters. -/
def evaluate (forward : Params → List (List ℚ) → List (List ℚ))
    (lossFn : List (List ℚ) → List Nat → ℚ)
    (m : Model) (batches : List Batch) (numSamples : Nat) :
    Model × ℚ × ℚ :=
  let m := { m with training := false }
  let st := batches.foldl
    (fun (st : ℚ × ℚ) b =>
      let outputs := forward m.params b.1
      (st.1 + lossFn outputs b.2 * (b.1.length : ℚ),
        st.2 + accuracy outputs b.2 * (b.1.length : ℚ)))
    (0, 0)
  (m, st.1 / (numSamples : ℚ), st.2 / (numSamples : ℚ))

/-- The dictionary stored in a checkpoint file.  Every field is optional
because `load_checkpoint` reads arbitrary files; the checkpoints this
script writes fill in all four keys. -/
structure RawCkpt where
  epoch : Option Nat
  model_state : Option Params
  optimizer_state : Option OptSt
  best_acc : Option ℚ
deriving DecidableEq

/-- The checkpoint filesystem: `none` — no file at that path
(`path.exists()` is false); `some none` — a file exists but `torch.load`
fails on it; `some (some c)` — a readable checkpoint `c`. -/
abbrev FS := String → Option (Option RawCkpt)

/-- `save_checkpoint` (source lines 151–153): (after `mkdir -p`) serialize
`state` to `path`, overwriting any existing content. -/
def save_checkpoint (fs : FS) (state : RawCkpt) (path : String) : FS :=
  fun q => if q = path then some (some state) else fs q

/-- Errors a resume attempt can raise: `torch.load` failing (absent or
unreadable file) or a missing dictionary key. -/
inductive LoadError where
  | loadFailure : LoadError
  | keyError : String → LoadError
deriving DecidableEq

/-- `load_checkpoint` (source lines 156–161): `torch.load` the file, then
`checkpoint["model_state"]` and `checkpoint["optimizer_state"]` (a missing
key raises `KeyError`), then `checkpoint.get("epoch", 0)` — a missing
`epoch` key silently defaults to `0`.  The stored `best_acc` is never
read; the return value is only (model state, optimizer state, epoch). -/
def load_checkpoint (fs : FS) (path : String) :
    Except LoadError (Params × OptSt × Nat) :=
  match fs path with
  | none => .error .loadFailure
  | some none => .error .loadFailure
  | some (some c) =>
    match c.model_state with
    | none => .error (.keyError "model_state")
    | some ms =>
      match c.optimizer_state with
      | none => .error (.keyError "optimizer_state")
      | some os => .ok (ms, os, c.epoch.getD 0)

/-- The resume prologue of `run_training` (source lines 183–187):
`start_epoch = 0`; only `if cfg.resume is not None and cfg.resume.exists()`
is `load_checkpoint` called, so an absent file is silently skipped and the
run starts from scratch; an exception from `load_checkpoint` propagates. -/
def resolveResume (fs : FS) (resume : Option String) :
    Except LoadError Nat :=
  match resume with
  | none => .ok 0
  | some p =>
    if (fs p).isSome then
      match load_checkpoint fs p with
      | .error e => .error e
      | .ok r => .ok r.2.2
    else .ok 0

/-- The state of `torch.optim.lr_scheduler.StepLR`: the step counter
`last_epoch` and the current learning rate held in the optimizer's param
group. -/
structure SchedState where
  last_epoch : Int
  lr : ℚ
deriving DecidableEq

/-- One `scheduler.step()` of `StepLR`: increment `last_epoch`; the rate
is kept when `last_epoch == 0 or last_epoch % step_size != 0`, otherwise
multiplied by `gamma` (PyTorch's recursive `get_lr`). -/
def stepLR (step_size : Nat) (gamma : ℚ) (s : SchedState) : SchedState :=
  let e := s.last_epoch + 1
  { last_epoch := e
    lr := if e = 0 ∨ e % (step_size : Int) ≠ 0 then s.lr else s.lr * gamma }

/-- Scheduler state right after construction: `StepLR.__init__` runs one
initial step from `last_epoch = -1`, landing on `last_epoch = 0` with the
base rate unchanged. -/
def schedInit (lr0 : ℚ) : SchedState :=
  { last_epoch := 0, lr := lr0 }

/-- Iterate `scheduler.step()`. -/
def schedIter (step_size : Nat) (gamma : ℚ) : Nat → SchedState → SchedState
  | 0, s => s
  | n + 1, s => schedIter step_size gamma n (stepLR step_size gamma s)

/-- Scheduler state of an uninterrupted run just before epoch `t`
(0-based): the loop has called `scheduler.step()` once per completed
epoch, i.e. `t` times. -/
def schedFresh (step_size : Nat) (gamma lr0 : ℚ) (t : Nat) : SchedState :=
  schedIter step_size gamma t (schedInit lr0)

/-- Scheduler state of a resumed run just before epoch `t ≥ E`, where the
loaded checkpoint reported `start_epoch = E`.  `run_training` builds a
fresh scheduler, `optimizer.load_state_dict` restores the saved learning
rate (the rate the fresh run had just before epoch `E`), and line 187 sets
`scheduler.last_epoch = start_epoch - 1`; then one step per completed
post-resume epoch. -/
def schedResumed (step_size : Nat) (gamma lr0 : ℚ) (E t : Nat) : SchedState :=
  schedIter step_size gamma (t - E)
    { last_epoch := (E : Int) - 1, lr := (schedFresh step_size gamma lr0 E).lr }

/-- The two named slots of the checkpoint store:
`<output_dir>/checkpoint.pth` (latest) and `<output_dir>/best.pth`. -/
structure Store where
  latest : Option RawCkpt
  best : Option RawCkpt
deriving DecidableEq

/-- The per-epoch checkpoint bookkeeping of `run_training` (source lines
201–225): `is_best = val_acc > best_acc`; if so `best_acc` is raised; the
latest slot is overwritten unconditionally with
`{epoch: epoch+1, model_state, optimizer_state, best_acc}` and the best
slot only when `is_best`.  Returns the new tracker value, the new store,
and whether `best.pth` was written. -/
def epochCheckpointStep (ms : Params) (os : OptSt) (epoch : Nat)
    (valAcc bestAcc : ℚ) (st : Store) : ℚ × Store × Bool :=
  let is_best := decide (bestAcc < valAcc)
  let bestAcc' := if bestAcc < valAcc then valAcc else bestAcc
  let ck : RawCkpt :=
    { epoch := some (epoch + 1), model_state := some ms,
      optimizer_state := some os, best_acc := some bestAcc' }
  let st' : Store := { latest := some ck, best := st.best }
  let st'' : Store := if is_best then { latest := st'.latest, best := some ck } else st'
  (bestAcc', st'', is_best)

/-- The epoch loop of `run_training` (source lines 190–225) restricted to
its checkpoint bookkeeping: the validation accuracies of the executed
epochs are the list `accs` (the training math that produces them is the
framework's), the model/optimizer snapshots saved each epoch are
abstracted as the fixed values `ms`, `os`.  Returns the final store and
the per-epoch best-write log. -/
def runEpochs (ms : Params) (os : OptSt) :
    Nat → List ℚ → ℚ → Store → Store × List (Bool × ℚ)
  | _, [], _, st => (st, [])
  | e, a :: rest, bestAcc, st =>
    let r := epochCheckpointStep ms os e a bestAcc st
    let tail := runEpochs ms os (e + 1) rest r.1 r.2.1
    (tail.1, (r.2.2, r.1) :: tail.2)

/-- `run_training`'s checkpoint-relevant skeleton (source lines 183–225):
resolve the resume request (start epoch `0` when there is none or the file
is absent), then — crucially, *after* the resume block — initialize
`best_acc = 0.0` (line 189) and run the epoch loop. -/
def run_training (fs : FS) (resume : Option String) (ms : Params)
    (os : OptSt) (accs : List ℚ) :
    Except LoadError (Store × List (Bool × ℚ)) :=
  match resolveResume fs resume with
  | .error e => .error e
  | .ok start_epoch => .ok (runEpochs ms os start_epoch accs 0 ⟨none, none⟩)

/-- Pure trace of the best-accuracy tracker: for each epoch, whether
`best.pth` is written and the `best_acc` value recorded in that epoch's
checkpoints. -/
def bestTrace (bestAcc : ℚ) : List ℚ → List (Bool × ℚ)
  | [] => []
  | a :: rest =>
    (decide (bestAcc < a), if bestAcc < a then a else bestAcc) ::
      bestTrace (if bestAcc < a then a else bestAcc) rest

/-- Modelled from the spec: the size-weighted average
`Σ(mi·ni)/Σ(ni)` of per-batch metric values `ms` with batch sizes `ns`
(spec §8, "Weighted running average"). -/
def specWeightedAvg (ms : List ℚ) (ns : List Nat) : ℚ :=
  (((ms.zip ns).map fun p => p.1 * (p.2 : ℚ)).sum) / ((ns.sum : ℚ))

/-- Per-batch (loss, accuracy, size) trace of `train_one_epoch`: the
values the loop accumulates, with the (parameters, optimizer state) pair
evolving through `update` exactly as in the loop. -/
def trainTrace (forward : Params → List (List ℚ) → List (List ℚ))
    (lossFn : List (List ℚ) → List Nat → ℚ)
    (update : Params × OptSt → Batch → Params × OptSt) :
    Params × OptSt → List Batch → List (ℚ × ℚ × Nat)
  | _, [] => []
  | st, b :: rest =>
    let outputs := forward st.1 b.1
    (lossFn outputs b.2, accuracy outputs b.2, b.1.length) ::
      trainTrace forward lossFn update (update st b) rest

/-- Number of examples in a batch whose arg-max logit equals the label. -/
def countCorrect (logits : List (List ℚ)) (targets : List Nat) : Nat :=
  (logits.zip targets).countP fun p => decide (argmaxIdx p.1 = p.2)

/-- Total correct predictions of `forward` over a batch sequence. -/
def totalCorrect (forward : Params → List (List ℚ) → List (List ℚ))
    (ps : Params) (batches : List Batch) : Nat :=
  (batches.map fun b => countCorrect (forward ps b.1) b.2).sum

/-! ### Claim theorems -/

/-- C9 counterexample: a `TrainConfig` constructed directly (supplying only
the required `data_dir`) has `epochs = 20`, not the claimed common default
of `120`. -/
theorem config_defaults_counterexample :
    ({ data_dir := "./data" } : TrainConfig).epochs = 20 ∧ (20 : Nat) ≠ 120 :=
  ⟨rfl, by decide⟩

/-- C9 (amended): the command-line path defaults every field as the claim
lists them (batch size 128, epochs 120, lr 0.1, momentum 0.9, weight decay
5e-4, step size 60, gamma 0.2, workers 4, resume none, output `runs`, data
dir `./data`); direct construction requires `data_dir` and defaults
`epochs` to 20, with the remaining fields as listed. -/
theorem config_defaults :
    parse_args {} =
      { data_dir := "./data", batch_size := 128, num_workers := 4,
        epochs := 120, lr := 1/10, momentum := 9/10,
        weight_decay := 5/10000, step_size := 60, gamma := 1/5,
        resume := none, output_dir := "runs" } ∧
    ({ data_dir := "./data" } : TrainConfig) =
      { data_dir := "./data", batch_size := 128, num_workers := 4,
        epochs := 20, lr := 1/10, momentum := 9/10,
        weight_decay := 5/10000, step_size := 60, gamma := 1/5,
        resume := none, output_dir := "runs" } :=
  ⟨rfl, rfl⟩

/-- C5: saving the checkpoint dictionary `run_training` writes and loading
it from the same path reconstructs the model state, optimizer state and
epoch exactly. -/
theorem checkpoint_roundtrip (fs : FS) (path : String) (e : Nat)
    (ms : Params) (os : OptSt) (b : ℚ) :
    load_checkpoint
      (save_checkpoint fs
        { epoch := some e, model_state := some ms,
          optimizer_state := some os, best_acc := some b } path) path
      = .ok (ms, os, e) := by
  simp [load_checkpoint, save_checkpoint]

/-- C6: `evaluate` never mutates model parameters: the model coming out of
the evaluation pass carries exactly the parameter vector that went in (the
loop only reads `m.params`; the single model mutation is the `model.eval()`
mode flip). -/
theorem evaluate_params_frame
    (forward : Params → List (List ℚ) → List (List ℚ))
    (lossFn : List (List ℚ) → List Nat → ℚ)
    (m : Model) (bs : List Batch) (N : Nat) :
    ((evaluate forward lossFn m bs N).1).params = m.params := rfl

/-- Unfolding lemma: one scheduler step. -/
theorem schedIter_one (ss : Nat) (g : ℚ) (s : SchedState) :
    schedIter ss g 1 s = stepLR ss g s := rfl

/-- Unfolding lemma: two scheduler steps. -/
theorem schedIter_two (ss : Nat) (g : ℚ) (s : SchedState) :
    schedIter ss g 2 s = stepLR ss g (stepLR ss g s) := rfl

/-- C3: evaluating the resume logic at the failing input
`step_size = 2, gamma = 1/5, lr = 1/10`, checkpoint saved at the end of the
first epoch (stored epoch = 1): just before epoch index 2 the resumed
scheduler still holds lr 1/10, while the uninterrupted run holds
1/10 · 1/5 = 1/50 — the decay fires one epoch late because line 187 sets
`scheduler.last_epoch = start_epoch - 1`, one less than the uninterrupted
counter. -/
theorem resume_lr_off_by_one :
    (schedResumed 2 (1/5) (1/10) 1 2).lr = 1/10 ∧
    (schedFresh 2 (1/5) (1/10) 2).lr = 1/50 ∧
    ((1 : ℚ)/10) ≠ 1/50 := by
  refine ⟨?_, ?_, by norm_num⟩
  · show (stepLR 2 (1/5)
        { last_epoch := (1 : Int) - 1,
          lr := (stepLR 2 (1/5) (schedInit (1/10))).lr }).lr = 1/10
    norm_num [stepLR, schedInit]
  · show (stepLR 2 (1/5) (stepLR 2 (1/5) (schedInit (1/10)))).lr = 1/50
    norm_num [stepLR, schedInit]

/-- A concrete checkpoint dictionary with no `epoch` key. -/
def ckptNoEpoch : RawCkpt where
  epoch := none
  model_state := some [1]
  optimizer_state := some [2]
  best_acc := some (1/2)

/-- A concrete filesystem whose every path holds `ckptNoEpoch`. -/
def fsNoEpoch : FS := fun _ => some (some ckptNoEpoch)

/-- C4 counterexample: an absent resume file is not fatal — the run
silently starts from scratch (`resolveResume` succeeds with epoch 0) — and
a checkpoint missing the `epoch` key loads successfully with the default
value 0 substituted, instead of failing. -/
theorem resume_failure_counterexample :
    (¬ ∃ e, resolveResume (fun _ => none) (some "ckpt") = Except.error e) ∧
    (¬ ∃ e, load_checkpoint fsNoEpoch "ckpt" = Except.error e) ∧
    resolveResume (fun _ => none) (some "ckpt") = .ok 0 ∧
    load_checkpoint fsNoEpoch "ckpt" = .ok ([1], [2], 0) := by
  refine ⟨?_, ?_, rfl, rfl⟩ <;> rintro ⟨e, h⟩ <;> exact Except.noConfusion h

/-- C4 (amended): a resume file that exists but cannot be deserialized, or
that is missing `model_state` or `optimizer_state`, makes the run fail
with the corresponding error and there is no fallback; but an absent file
is silently skipped (training starts from scratch at epoch 0), and a
missing `epoch` key is replaced by the default 0 rather than failing. -/
theorem resume_failure_modes (fs : FS) (p : String) :
    (fs p = some none →
      resolveResume fs (some p) = .error .loadFailure) ∧
    (∀ c : RawCkpt, fs p = some (some c) → c.model_state = none →
      resolveResume fs (some p) = .error (.keyError "model_state")) ∧
    (∀ c : RawCkpt, ∀ ms, fs p = some (some c) → c.model_state = some ms →
      c.optimizer_state = none →
      resolveResume fs (some p) = .error (.keyError "optimizer_state")) ∧
    (fs p = none → resolveResume fs (some p) = .ok 0) ∧
    (∀ c : RawCkpt, ∀ ms os, fs p = some (some c) → c.model_state = some ms →
      c.optimizer_state = some os →
      resolveResume fs (some p) = .ok (c.epoch.getD 0)) := by
  refine ⟨fun h => ?_, fun c h h1 => ?_, fun c ms h h1 h2 => ?_,
    fun h => ?_, fun c ms os h h1 h2 => ?_⟩
  · simp [resolveResume, load_checkpoint, h]
  · simp [resolveResume, load_checkpoint, h, h1]
  · simp [resolveResume, load_checkpoint, h, h1, h2]
  · simp [resolveResume, load_checkpoint, h]
  · simp [resolveResume, load_checkpoint, h, h1, h2]

/-- Witness for `resume_failure_modes`: a file present but unreadable at
the resume path is fatal. -/
theorem resume_failure_modes_witness :
    resolveResume (fun q => if q = "a" then some none else none) (some "a")
      = .error .loadFailure :=
  (resume_failure_modes (fun q => if q = "a" then some none else none) "a").1
    (by simp)

/-- C10: `load_checkpoint` returns only (model state, optimizer state,
epoch) — the stored `best_acc` is never restored — and `run_training`
initializes its tracker to 0 after the resume block, so the first
post-resume epoch whose validation accuracy `a` exceeds 0 writes
`best.pth`, even though the loaded checkpoint recorded a strictly higher
best accuracy `B`. -/
theorem resume_best_acc_reset (fs : FS) (p : String) (e : Nat)
    (ms os ms' : Params) (os' : OptSt) (B a : ℚ) (accs : List ℚ)
    (hfs : fs p = some (some
      { epoch := some e, model_state := some ms,
        optimizer_state := some os, best_acc := some B }))
    (ha : 0 < a) (_hB : a < B) :
    load_checkpoint fs p = .ok (ms, os, e) ∧
    ((run_training fs (some p) ms' os' (a :: accs)).toOption.map
        fun r => r.2.headD (false, 0)) = some (true, a) := by
  constructor
  · simp [load_checkpoint, hfs]
  · simp [run_training, resolveResume, load_checkpoint, hfs, runEpochs,
      epochCheckpointStep, ha, Except.toOption]

/-- A concrete checkpoint recording a high previous best accuracy 9/10. -/
def ckptHighBest : RawCkpt where
  epoch := some 3
  model_state := some [1]
  optimizer_state := some [2]
  best_acc := some (9/10)

/-- A concrete filesystem holding `ckptHighBest` at path `ck`. -/
def fsHighBest : FS := fun q => if q = "ck" then some (some ckptHighBest) else none

/-- Witness for `resume_best_acc_reset` at a concrete store: previous
invocation recorded best accuracy 9/10, first resumed epoch reaches only
1/2, and `best.pth` is nevertheless overwritten. -/
theorem resume_best_acc_reset_witness :
    load_checkpoint fsHighBest "ck" = .ok ([1], [2], 3) ∧
    ((run_training fsHighBest (some "ck") [5] [6] [1/2]).toOption.map
        fun r => r.2.headD (false, 0)) = some (true, 1/2) :=
  resume_best_acc_reset fsHighBest "ck" 3 [1] [2] [5] [6] (9/10) (1/2) []
    (by simp [fsHighBest, ckptHighBest]) (by norm_num) (by norm_num)

/-- The best-write log of the epoch loop does not depend on the store, the
epoch numbering or the saved snapshots: it is the pure trace of the
best-accuracy tracker. -/
theorem runEpochs_log (ms os : Params) (e : Nat) (accs : List ℚ) (b : ℚ)
    (st : Store) : (runEpochs ms os e accs b st).2 = bestTrace b accs := by
  induction accs generalizing e b st with
  | nil => rfl
  | cons a rest ih => simp [runEpochs, bestTrace, epochCheckpointStep, ih]

/-- The tracker update `if b < a then a else b` is `max b a`. -/
theorem if_lt_eq_max (a b : ℚ) : (if b < a then a else b) = max b a := by
  rcases le_or_lt a b with h | h
  · rw [if_neg (not_lt.mpr h), max_eq_left h]
  · rw [if_pos h, max_eq_right h.le]

/-- The best-write flag of epoch `t` records whether that epoch's accuracy
strictly exceeds the running maximum of the tracker seed and all previous
accuracies. -/
theorem bestTrace_flag (accs : List ℚ) : ∀ (b : ℚ) (t : Nat),
    t < accs.length →
    (((bestTrace b accs).map Prod.fst).getD t false = true ↔
      (accs.take t).foldl max b < accs.getD t 0) := by
  induction accs with
  | nil =>
    intro b t ht
    simp at ht
  | cons a rest ih =>
    intro b t ht
    cases t with
    | zero => simp [bestTrace]
    | succ t =>
      have ht' : t < rest.length := by simpa using ht
      have h := ih (if b < a then a else b) t ht'
      rw [if_lt_eq_max] at h
      simpa [bestTrace, List.getD_cons_succ, if_lt_eq_max] using h

/-- Strictly exceeding a running maximum means strictly exceeding the seed
and every listed element. -/
theorem foldl_max_lt (l : List ℚ) : ∀ b x : ℚ,
    l.foldl max b < x ↔ b < x ∧ ∀ y ∈ l, y < x := by
  induction l with
  | nil => intro b x; simp
  | cons a l ih =>
    intro b x
    rw [List.foldl_cons, ih, max_lt_iff]
    constructor
    · rintro ⟨⟨hb, ha⟩, hl⟩
      exact ⟨hb, by simpa [ha] using hl⟩
    · rintro ⟨hb, hl⟩
      refine ⟨⟨hb, hl a (by simp)⟩, fun y hy => hl y (by simp [hy])⟩

/-- C1 (amended): `best.pth` is written at epoch `t` if and only if that
epoch's validation accuracy is strictly positive AND strictly greater than
every previous epoch's validation accuracy of the run (the tracker starts
at `0.0`, so a first epoch with accuracy `0` is not persisted as best); on
the accuracy sequence [0.5, 0.4, 0.6, 0.6] the best checkpoint is written
at epochs 1 and 3 only. -/
theorem best_written_iff (ms os : Params) (e : Nat) (st : Store)
    (accs : List ℚ) (t : Nat) (ht : t < accs.length) :
    ((((runEpochs ms os e accs 0 st).2.map Prod.fst).getD t false = true) ↔
      (0 < accs.getD t 0 ∧ ∀ y ∈ accs.take t, y < accs.getD t 0)) ∧
    (runEpochs ms os e [1/2, 2/5, 3/5, 3/5] 0 st).2.map Prod.fst =
      [true, false, true, false] := by
  constructor
  · rw [runEpochs_log, bestTrace_flag accs 0 t ht, foldl_max_lt]
  · rw [runEpochs_log]
    norm_num [bestTrace]

/-- Witness for `best_written_iff`: on the one-epoch run with accuracy
1/2, `best.pth` is written at the first epoch. -/
theorem best_written_iff_witness :
    ((((runEpochs [] [] 0 [1/2] 0 { latest := none, best := none }).2.map
        Prod.fst).getD 0 false = true) ↔
      (0 < [(1:ℚ)/2].getD 0 0 ∧ ∀ y ∈ [(1:ℚ)/2].take 0, y < [(1:ℚ)/2].getD 0 0)) ∧
    (runEpochs [] [] 0 [1/2, 2/5, 3/5, 3/5] 0
        { latest := none, best := none }).2.map Prod.fst =
      [true, false, true, false] :=
  best_written_iff [] [] 0 { latest := none, best := none } [1/2] 0 (by simp)

/-- C1 counterexample: the claim's "written iff strictly greater than every
previous epoch (and at epoch 1 even though there are no previous epochs)"
fails on the accuracy sequence [0]: its first epoch has no previous epochs,
yet `best.pth` is not written, because the code compares against the
tracker initialized to `0.0`. -/
theorem best_written_iff_counterexample :
    ¬ (∀ (ms os : Params) (e : Nat) (st : Store) (accs : List ℚ) (t : Nat),
        t < accs.length →
        ((((runEpochs ms os e accs 0 st).2.map Prod.fst).getD t false = true) ↔
          ∀ y ∈ accs.take t, y < accs.getD t 0)) := by
  intro h
  have h0 := (h [] [] 0 { latest := none, best := none } [0] 0
    (by simp)).mpr (by simp)
  rw [runEpochs_log] at h0
  simp [bestTrace] at h0

/-- Heads of the tracker-value trace never fall below the incoming
tracker value. -/
theorem le_bestTrace_head (b : ℚ) (rest : List ℚ) :
    ∀ h ∈ ((bestTrace b rest).map Prod.snd).head?, b ≤ h := by
  cases rest with
  | nil => simp [bestTrace]
  | cons a r =>
    simp only [bestTrace, List.map_cons, List.head?_cons, Option.mem_def,
      Option.some.injEq]
    rintro h rfl
    split
    · exact le_of_lt (by assumption)
    · exact le_rfl

/-- The `best_acc` values recorded by successive epochs form a
non-decreasing chain. -/
theorem bestTrace_chain (accs : List ℚ) : ∀ b : ℚ,
    List.Chain' (fun x y => x ≤ y) ((bestTrace b accs).map Prod.snd) := by
  induction accs with
  | nil => intro b; simp [bestTrace]
  | cons a rest ih =>
    intro b
    rw [show bestTrace b (a :: rest) =
      (decide (b < a), if b < a then a else b) ::
        bestTrace (if b < a then a else b) rest from rfl]
    rw [List.map_cons, List.chain'_cons']
    exact ⟨le_bestTrace_head _ rest, ih _⟩

/-- C7: within a run, the `best_acc` field written to the checkpoint store
is monotonically non-decreasing from each epoch to the next. -/
theorem best_acc_monotone (ms os : Params) (e : Nat) (st : Store)
    (accs : List ℚ) :
    List.Chain' (fun x y => x ≤ y)
      ((runEpochs ms os e accs 0 st).2.map Prod.snd) := by
  rw [runEpochs_log]
  exact bestTrace_chain accs 0

/-- The running-total fold of `evaluate` accumulates exactly the sums of
per-batch metric · size. -/
theorem eval_foldl (f : Params → List (List ℚ) → List (List ℚ))
    (lf : List (List ℚ) → List Nat → ℚ) (p : Params) (bs : List Batch) :
    ∀ x y : ℚ,
    bs.foldl (fun (st : ℚ × ℚ) b =>
        (st.1 + lf (f p b.1) b.2 * (b.1.length : ℚ),
          st.2 + accuracy (f p b.1) b.2 * (b.1.length : ℚ))) (x, y) =
      (x + ((bs.map fun b => lf (f p b.1) b.2 * (b.1.length : ℚ)).sum),
        y + ((bs.map fun b => accuracy (f p b.1) b.2 * (b.1.length : ℚ)).sum)) := by
  induction bs with
  | nil => intro x y; simp
  | cons b rest ih => intro x y; simp [ih, add_assoc]

/-- The running-total fold of `train_one_epoch` accumulates the sums of
metric · size along the `trainTrace`, while threading the
(parameters, optimizer state) pair through `update`. -/
theorem train_foldl (f : Params → List (List ℚ) → List (List ℚ))
    (lf : List (List ℚ) → List Nat → ℚ)
    (update : Params × OptSt → Batch → Params × OptSt) (bs : List Batch) :
    ∀ (st : Params × OptSt) (x y : ℚ),
    bs.foldl (fun (acc : (Params × OptSt) × ℚ × ℚ) b =>
        (update acc.1 b,
          acc.2.1 + lf (f acc.1.1 b.1) b.2 * (b.1.length : ℚ),
          acc.2.2 + accuracy (f acc.1.1 b.1) b.2 * (b.1.length : ℚ))) (st, x, y) =
      (bs.foldl update st,
        x + ((trainTrace f lf update st bs).map fun v => v.1 * (v.2.2 : ℚ)).sum,
        y + ((trainTrace f lf update st bs).map fun v => v.2.1 * (v.2.2 : ℚ)).sum) := by
  induction bs with
  | nil => intro st x y; simp [trainTrace]
  | cons b rest ih => intro st x y; simp [trainTrace, ih, add_assoc]

/-- The sizes recorded along `trainTrace` are the batch sizes. -/
theorem trainTrace_sizes (f : Params → List (List ℚ) → List (List ℚ))
    (lf : List (List ℚ) → List Nat → ℚ)
    (update : Params × OptSt → Batch → Params × OptSt) (bs : List Batch) :
    ∀ st, (trainTrace f lf update st bs).map (fun v => v.2.2) =
      bs.map fun b => b.1.length := by
  induction bs with
  | nil => intro st; rfl
  | cons b rest ih => intro st; simp [trainTrace, ih]

/-- `specWeightedAvg` over two maps of the same list. -/
theorem specWeightedAvg_maps {α : Type} (g : α → ℚ) (n : α → Nat) (l : List α) :
    specWeightedAvg (l.map g) (l.map n) =
      ((l.map fun b => g b * ((n b : Nat) : ℚ)).sum) / ((((l.map n).sum : Nat) : ℚ)) := by
  simp only [specWeightedAvg, List.zip_map', List.map_map]
  rfl

/-- C2 (amended): for a traversal whose batch sizes sum to
`len(dataloader.dataset)` — i.e. one that exhausts the dataset, ragged
final batch included — the loss and accuracy metrics of both
`train_one_epoch` and `evaluate` equal the size-weighted average
Σ(mi·ni)/Σ(ni) of the per-batch values; for synthetic batch sequences that
do not exhaust the dataset the code divides by the dataset size instead
(see the counterexample). -/
theorem epoch_metric_weighted_avg
    (f : Params → List (List ℚ) → List (List ℚ))
    (lf : List (List ℚ) → List Nat → ℚ)
    (update : Params × OptSt → Batch → Params × OptSt)
    (m : Model) (opt : OptSt) (bs : List Batch) (N : Nat)
    (hsum : (bs.map fun b => b.1.length).sum = N) :
    (evaluate f lf m bs N).2.1 =
      specWeightedAvg (bs.map fun b => lf (f m.params b.1) b.2)
        (bs.map fun b => b.1.length) ∧
    (evaluate f lf m bs N).2.2 =
      specWeightedAvg (bs.map fun b => accuracy (f m.params b.1) b.2)
        (bs.map fun b => b.1.length) ∧
    (train_one_epoch f lf update m opt bs N).2.1 =
      specWeightedAvg
        ((trainTrace f lf update (m.params, opt) bs).map fun v => v.1)
        ((trainTrace f lf update (m.params, opt) bs).map fun v => v.2.2) ∧
    (train_one_epoch f lf update m opt bs N).2.2 =
      specWeightedAvg
        ((trainTrace f lf update (m.params, opt) bs).map fun v => v.2.1)
        ((trainTrace f lf update (m.params, opt) bs).map fun v => v.2.2) := by
  refine ⟨?_, ?_, ?_, ?_⟩
  · rw [specWeightedAvg_maps, hsum]
    simp only [evaluate]
    rw [eval_foldl]
    simp
  · rw [specWeightedAvg_maps, hsum]
    simp only [evaluate]
    rw [eval_foldl]
    simp
  · rw [specWeightedAvg_maps, trainTrace_sizes, hsum]
    simp only [train_one_epoch]
    rw [train_foldl]
    simp
  · rw [specWeightedAvg_maps, trainTrace_sizes, hsum]
    simp only [train_one_epoch]
    rw [train_foldl]
    simp

/-- Witness for `epoch_metric_weighted_avg`: a single batch of one example
with metric value 1 exhausting a one-example dataset — the reported loss
metric is the weighted average `specWeightedAvg [1] [1]`. -/
theorem epoch_metric_weighted_avg_witness :
    (evaluate (fun _ imgs => imgs) (fun _ _ => (1:ℚ))
        { params := [], training := true } [([[0]], [0])] 1).2.1 =
      specWeightedAvg [(1:ℚ)] [1] :=
  (epoch_metric_weighted_avg (fun _ imgs => imgs) (fun _ _ => (1:ℚ))
    (fun s _ => s) { params := [], training := true } [] [([[0]], [0])] 1 rfl).1

/-- C2 counterexample: a synthetic single-batch sequence (one example,
per-batch metric value 1) run against a dataset of 2 examples: `evaluate`
reports 1·1/2 = 1/2 because it divides by `len(dataloader.dataset)`, while
the size-weighted average Σ(mi·ni)/Σ(ni) of the claim is 1. -/
theorem epoch_metric_counterexample :
    (evaluate (fun _ imgs => imgs) (fun _ _ => (1:ℚ))
        { params := [], training := true } [([[0]], [0])] 2).2.1 = 1/2 ∧
    specWeightedAvg [(1:ℚ)] [1] = 1 ∧ ((1:ℚ)/2) ≠ 1 := by
  refine ⟨?_, ?_, by norm_num⟩
  · norm_num [evaluate]
  · norm_num [specWeightedAvg]

/-- A batch's accuracy times the number of predictions is the number of
correct predictions (exactly, including the empty batch, where the
division by zero and the product are both zero). -/
theorem accuracy_mul_len (L : List (List ℚ)) (T : List Nat) :
    accuracy L T * (L.length : ℚ) = (countCorrect L T : ℚ) := by
  rcases eq_or_ne L.length 0 with h | h
  · rcases List.length_eq_zero.mp h with rfl
    simp [accuracy, countCorrect]
  · rw [accuracy, countCorrect,
      div_mul_cancel₀ _ (Nat.cast_ne_zero.mpr h)]

/-- A batch's correct-prediction count is at most its prediction count. -/
theorem countCorrect_le (L : List (List ℚ)) (T : List Nat) :
    countCorrect L T ≤ L.length := by
  calc countCorrect L T ≤ (L.zip T).length := List.countP_le_length _
  _ ≤ L.length := by rw [List.length_zip]; exact min_le_left _ _

/-- C8: over an exhaustive single-epoch traversal (batch sizes summing to
the dataset size, each batch's predictions and labels matching its image
count), the reported `acc` equals exactly (arg-max-correct predictions) /
(total examples), and lies in [0, 1]. -/
theorem eval_acc_exact (f : Params → List (List ℚ) → List (List ℚ))
    (lf : List (List ℚ) → List Nat → ℚ) (m : Model) (bs : List Batch)
    (N : Nat)
    (hrows : ∀ b ∈ bs, (f m.params b.1).length = b.1.length)
    (hsum : (bs.map fun b => b.1.length).sum = N) (hN : 0 < N) :
    (evaluate f lf m bs N).2.2 = (totalCorrect f m.params bs : ℚ) / (N : ℚ) ∧
    0 ≤ (evaluate f lf m bs N).2.2 ∧ (evaluate f lf m bs N).2.2 ≤ 1 := by
  have hacc : (evaluate f lf m bs N).2.2 =
      (totalCorrect f m.params bs : ℚ) / (N : ℚ) := by
    simp only [evaluate]
    rw [eval_foldl]
    simp only [zero_add]
    congr 1
    rw [totalCorrect, Nat.cast_list_sum, List.map_map]
    exact congrArg List.sum (List.map_congr_left fun b hb => by
      rw [Function.comp_apply, ← hrows b hb, accuracy_mul_len])
  have hle : totalCorrect f m.params bs ≤ N := by
    rw [← hsum, totalCorrect]
    refine List.sum_le_sum fun b hb => ?_
    calc countCorrect (f m.params b.1) b.2 ≤ (f m.params b.1).length :=
      countCorrect_le _ _
    _ = b.1.length := hrows b hb
  refine ⟨hacc, ?_, ?_⟩
  · rw [hacc]
    positivity
  · rw [hacc, div_le_one (by exact_mod_cast hN)]
    exact_mod_cast hle

/-- Witness for `eval_acc_exact`: two images, predictions read off the
images themselves, one of two predictions correct — the reported accuracy
is exactly 1/2. -/
theorem eval_acc_exact_witness :
    (evaluate (fun _ imgs => imgs) (fun _ _ => (0:ℚ))
        { params := [], training := true } [([[1, 0], [0, 1]], [0, 0])] 2).2.2 =
      (totalCorrect (fun _ imgs => imgs) [] [([[1, 0], [0, 1]], [0, 0])] : ℚ)
        / (2 : ℚ) ∧
    0 ≤ (evaluate (fun _ imgs => imgs) (fun _ _ => (0:ℚ))
        { params := [], training := true } [([[1, 0], [0, 1]], [0, 0])] 2).2.2 ∧
    (evaluate (fun _ imgs => imgs) (fun _ _ => (0:ℚ))
        { params := [], training := true } [([[1, 0], [0, 1]], [0, 0])] 2).2.2 ≤ 1 :=
  eval_acc_exact (fun _ imgs => imgs) (fun _ _ => (0:ℚ))
    { params := [], training := true } [([[1, 0], [0, 1]], [0, 0])] 2
    (by simp) rfl (by norm_num)

end TrainCifar
